import Mathlib

/-!
# Verification of the `agent-contracts` decision core

A shallow embedding of the repository's decision engine
(`src/agent_contracts/supervisor.py`, class `GenericSupervisor`) and registry
(`src/agent_contracts/registry.py`, class `NodeRegistry`), together with
theorems settling the frozen claims about them.

Python data values that flow through the engine (workflow state slices,
trigger-condition expectations) are embedded as the inductive type `Value`
(None / bool / int / str / dict / list).  Python dicts are embedded as the
insertion-ordered association list `VDict` (Python dicts preserve insertion
order and never hold a duplicate key).  Stateful Python methods become pure
functions; methods that can raise return `Except String`; the external LLM
("Arbitrator") and the registry's prompt-building call are passed in as
function parameters so that theorems can quantify over their behaviour.

Floating-point numbers never reach the decision core in this repository and
are not modelled; Python ints are embedded as `Int`.
-/

set_option autoImplicit false

namespace AgentContracts

mutual
/-- A Python value as seen by the decision core: `None`, `bool`, `int`,
`str`, `dict` (insertion-ordered, duplicate-free) or `list`. -/
inductive Value where
  | vnone
  | vbool (b : Bool)
  | vint (n : Int)
  | vstr (s : String)
  | vdict (d : VDict)
  | vlist (l : VList)
  deriving DecidableEq

inductive VDict where
  | nil
  | cons (key : String) (val : Value) (rest : VDict)
  deriving DecidableEq

inductive VList where
  | nil
  | cons (head : Value) (tail : VList)
  deriving DecidableEq
end

/-- A Python workflow state: a dict mapping slice names to values. -/
abbrev State := VDict

namespace VDict

/-- First value stored under `k`, if any (Python `k in d` / `d[k]`). -/
def get? : VDict → String → Option Value
  | .nil, _ => none
  | .cons k0 v rest, k => if k0 == k then some v else get? rest k

/-- Python `d.get(k, dflt)`. -/
def getD (d : VDict) (k : String) (dflt : Value) : Value :=
  (d.get? k).getD dflt

/-- Python `d.get(k)` (absent keys give `None`). -/
def get (d : VDict) (k : String) : Value :=
  d.getD k .vnone

/-- Python `{**d, k: v}`: overwrite `k` in place if present, else append. -/
def set : VDict → String → Value → VDict
  | .nil, k, v => .cons k v .nil
  | .cons k0 v0 rest, k, v =>
    if k0 == k then .cons k0 v rest else .cons k0 v0 (set rest k v)

def isEmpty : VDict → Bool
  | .nil => true
  | .cons _ _ _ => false

def length : VDict → Nat
  | .nil => 0
  | .cons _ _ rest => 1 + length rest

end VDict

namespace VList

def isEmpty : VList → Bool
  | .nil => true
  | .cons _ _ => false

end VList

/-- Python truthiness (`bool(x)`) for the embedded values. -/
def pyTruthy : Value → Bool
  | .vnone => false
  | .vbool b => b
  | .vint n => !(n == 0)
  | .vstr s => !(s == "")
  | .vdict d => !d.isEmpty
  | .vlist l => !l.isEmpty

mutual
/-- Python `==` on the embedded values.  Booleans compare numerically with
ints (`True == 1`); dicts compare by key lookup (order-insensitively: equal
length plus every entry of the left dict matched in the right one, which for
duplicate-free dicts is exactly Python's dict equality); lists compare
pointwise. -/
def pyEq : Value → Value → Bool
  | .vnone, .vnone => true
  | .vbool a, .vbool b => a == b
  | .vbool a, .vint n => (if a then (1 : Int) else 0) == n
  | .vint n, .vbool b => n == (if b then (1 : Int) else 0)
  | .vint m, .vint n => m == n
  | .vstr s, .vstr t => s == t
  | .vdict d1, .vdict d2 => d1.length == d2.length && pyEqEntries d1 d2
  | .vlist l1, .vlist l2 => pyEqList l1 l2
  | _, _ => false

def pyEqEntries : VDict → VDict → Bool
  | .nil, _ => true
  | .cons k v rest, d2 =>
    (match d2.get? k with
     | some w => pyEq v w
     | none => false)
    && pyEqEntries rest d2

def pyEqList : VList → VList → Bool
  | .nil, .nil => true
  | .cons x xs, .cons y ys => pyEq x y && pyEqList xs ys
  | _, _ => false
end

/-- Modelled from the spec: `contracts.py` (class `TriggerCondition`) is not
included under `src/`; the shape follows spec §3 and the construction sites
in `tests/test_registry.py` / `tests/test_supervisor.py`.  `when` maps dotted
state paths to expected values (all must match), `when_not` to forbidden
values (none may match); `llm_hint` is free text shown only to the
Arbitrator. -/
structure TriggerCondition where
  priority : Int := 0
  when : VDict := .nil
  when_not : VDict := .nil
  llm_hint : Option String := none
  deriving DecidableEq

/-- Modelled from the spec: `contracts.py` (class `NodeContract`) is not
included under `src/`; the shape follows spec §3 and the fields read by
`registry.py` / `supervisor.py` / `node.py`. -/
structure NodeContract where
  name : String
  description : String := ""
  reads : List String := []
  writes : List String := []
  supervisor : String := ""
  terminal : Bool := false
  trigger_conditions : List TriggerCondition := []
  services : List String := []
  deriving DecidableEq

/-- `NodeRegistry` (`registry.py:16`).  `contracts` is the registration-order
contract table (`self._contracts`, a Python insertion-ordered dict keyed by
the unique contract name); `validSlices` embeds `self._valid_slices`.  The
Python field is a `set`, whose iteration order is unspecified; the list order
here stands in for one such order, and no claim below depends on it. -/
structure NodeRegistry where
  contracts : List NodeContract
  validSlices : List String

/-- A fresh registry with the default valid-slice set (`registry.py:37`). -/
def NodeRegistry.empty : NodeRegistry :=
  { contracts := [], validSlices := ["request", "response", "_internal"] }

/-- `NodeRegistry.register` (`registry.py:39`): fails if the contract name is
already present, otherwise records the contract.  The Python method receives
a node class and reads its `CONTRACT`; the embedding takes the contract
directly.  `_validate_contract` only emits log warnings and is not modelled.
The duplicate check (`registry.py:51`) precedes both insertions
(`registry.py:54-55`), so a failed call leaves the registry unmodified —
in the embedding an `error` result returns no new registry value. -/
def NodeRegistry.register (reg : NodeRegistry) (c : NodeContract) :
    Except String NodeRegistry :=
  if reg.contracts.any (fun c0 => c0.name == c.name) then
    .error ("Node " ++ c.name ++ " is already registered")
  else
    .ok { reg with contracts := reg.contracts ++ [c] }

/-- `NodeRegistry.get_contract` (`registry.py:79`). -/
def NodeRegistry.getContract (reg : NodeRegistry) (name : String) :
    Option NodeContract :=
  reg.contracts.find? (fun c => c.name == name)

/-- `NodeRegistry.get_supervisor_nodes` (`registry.py:87`): names of the
contracts owned by `supervisor`, in registration order. -/
def NodeRegistry.getSupervisorNodes (reg : NodeRegistry) (supervisor : String) :
    List String :=
  (reg.contracts.filter (fun c => c.supervisor == supervisor)).map (·.name)

/-- Python `key.split(".")`, specialised to the dot separator used by
`_get_state_value` (`registry.py:166`). -/
def splitDotAux : List Char → List Char → List String
  | [], acc => [String.mk acc.reverse]
  | c :: cs, acc =>
    if c = '.' then String.mk acc.reverse :: splitDotAux cs []
    else splitDotAux cs (c :: acc)

def splitDot (s : String) : List String :=
  splitDotAux s.data []

/-- Python `"." in key` (`registry.py:165`). -/
def containsDot (s : String) : Bool :=
  s.data.contains '.'

/-- The descent loop of `_get_state_value` (`registry.py:169-173`): walk the
remaining path parts through nested dicts; a non-dict intermediate value
short-circuits to `None`, an absent key gives `None` (`dict.get`). -/
def descendParts : Value → List String → Value
  | v, [] => v
  | .vdict d, p :: ps => descendParts (d.get p) ps
  | _, _ :: _ => .vnone

/-- The flat-key branch of `_get_state_value` (`registry.py:175-180`): search
every valid slice (in the modelled iteration order) for the key; slices that
are absent or not dicts are skipped. -/
def flatLookup (slices : List String) (state : State) (key : String) : Value :=
  match slices with
  | [] => .vnone
  | s :: rest =>
    match state.get? s with
    | some (.vdict d) =>
      match d.get? key with
      | some v => v
      | none => flatLookup rest state key
    | _ => flatLookup rest state key

/-- `NodeRegistry._get_state_value` (`registry.py:160`). -/
def NodeRegistry.getStateValue (reg : NodeRegistry) (state : State)
    (key : String) : Value :=
  if containsDot key then
    match splitDot key with
    | [] => .vnone
    | sliceName :: parts => descendParts (state.getD sliceName (.vdict .nil)) parts
  else
    flatLookup reg.validSlices state key

/-- `matches_expected` (`registry.py:137-142`): a literal `True`/`False`
expectation matches by truthiness of the actual value (`bool(actual) is
True` / `is False`); any other expectation matches by Python `==`. -/
def matchesExpected (actual expected : Value) : Bool :=
  match expected with
  | .vbool true => pyTruthy actual
  | .vbool false => !pyTruthy actual
  | _ => pyEq actual expected

/-- The `when` loop of `_evaluate_condition` (`registry.py:145-149`): every
positive predicate must match (an empty map is skipped, i.e. holds). -/
def whenAll (reg : NodeRegistry) (state : State) : VDict → Bool
  | .nil => true
  | .cons key expected rest =>
    matchesExpected (reg.getStateValue state key) expected
    && whenAll reg state rest

/-- The `when_not` loop of `_evaluate_condition` (`registry.py:152-156`):
no negative predicate may match (an empty map is skipped, i.e. holds). -/
def whenNotAll (reg : NodeRegistry) (state : State) : VDict → Bool
  | .nil => true
  | .cons key unexpected rest =>
    !matchesExpected (reg.getStateValue state key) unexpected
    && whenNotAll reg state rest

/-- `NodeRegistry._evaluate_condition` (`registry.py:131`). -/
def NodeRegistry.evaluateCondition (reg : NodeRegistry)
    (condition : TriggerCondition) (state : State) : Bool :=
  whenAll reg state condition.when && whenNotAll reg state condition.when_not

/-- The per-contract loop of `evaluate_triggers` (`registry.py:118-122`):
the highest priority among the contract's satisfied conditions, threaded
through the accumulator exactly as in the source. -/
def highestPriorityAux (reg : NodeRegistry) (state : State) :
    List TriggerCondition → Option Int → Option Int
  | [], acc => acc
  | c :: cs, acc =>
    highestPriorityAux reg state cs
      (if reg.evaluateCondition c state then
        match acc with
        | none => some c.priority
        | some h => if c.priority > h then some c.priority else some h
      else acc)

def highestPriority (reg : NodeRegistry) (state : State)
    (conds : List TriggerCondition) : Option Int :=
  highestPriorityAux reg state conds none

/-- Stable insertion keeping priorities descending: an element goes in front
of the first strictly-smaller priority, after everything of equal or larger
priority it follows in the input. -/
def insertDesc (x : Int × String) : List (Int × String) → List (Int × String)
  | [] => [x]
  | y :: ys => if x.1 ≥ y.1 then x :: y :: ys else y :: insertDesc x ys

/-- Stable sort by priority descending, the behaviour of Python's stable
`candidates.sort(key=lambda x: x[0], reverse=True)` (`registry.py:128`).
Any two stable descending sorts agree, so this insertion sort produces the
same list as CPython's Timsort. -/
def sortDesc : List (Int × String) → List (Int × String)
  | [] => []
  | x :: xs => insertDesc x (sortDesc xs)

/-- The candidate-collection loop of `evaluate_triggers`
(`registry.py:112-125`), before sorting: contracts of the supervisor in
registration order, each paired with its highest satisfied priority,
excluded when no condition is satisfied. -/
def evalCandidates (reg : NodeRegistry) (supervisor : String) (state : State) :
    List (Int × String) :=
  (reg.contracts.filter (fun c => c.supervisor == supervisor)).filterMap
    (fun c => (highestPriority reg state c.trigger_conditions).map
      (fun p => (p, c.name)))

/-- `NodeRegistry.evaluate_triggers` (`registry.py:98`). -/
def NodeRegistry.evaluateTriggers (reg : NodeRegistry) (supervisor : String)
    (state : State) : List (Int × String) :=
  sortDesc (evalCandidates reg supervisor state)

mutual
/-- Python `str(v)` for the embedded values, used by the f-strings that
format condition descriptions and context text.  String escaping inside
container reprs is simplified; none of the claims depends on the rendered
text. -/
def pyStr : Value → String
  | .vnone => "None"
  | .vbool true => "True"
  | .vbool false => "False"
  | .vint n => toString n
  | .vstr s => s
  | .vdict d => "\x7b" ++ pyStrEntries d ++ "\x7d"
  | .vlist l => "[" ++ pyStrElems l ++ "]"

def pyStrEntries : VDict → String
  | .nil => ""
  | .cons k v .nil => "\x27" ++ k ++ "\x27: " ++ pyStr v
  | .cons k v rest => "\x27" ++ k ++ "\x27: " ++ pyStr v ++ ", " ++ pyStrEntries rest

def pyStrElems : VList → String
  | .nil => ""
  | .cons v .nil => pyStr v
  | .cons v rest => pyStr v ++ ", " ++ pyStrElems rest
end

mutual
/-- Python `json.dumps(v, ensure_ascii=False, default=str)` for the embedded
values (`supervisor.py:307,314`).  String escaping is simplified; none of
the claims depends on the rendered text. -/
def pyJson : Value → String
  | .vnone => "null"
  | .vbool true => "true"
  | .vbool false => "false"
  | .vint n => toString n
  | .vstr s => "\"" ++ s ++ "\""
  | .vdict d => "\x7b" ++ pyJsonEntries d ++ "\x7d"
  | .vlist l => "[" ++ pyJsonElems l ++ "]"

def pyJsonEntries : VDict → String
  | .nil => ""
  | .cons k v .nil => "\"" ++ k ++ "\": " ++ pyJson v
  | .cons k v rest => "\"" ++ k ++ "\": " ++ pyJson v ++ ", " ++ pyJsonEntries rest

def pyJsonElems : VList → String
  | .nil => ""
  | .cons v .nil => pyJson v
  | .cons v rest => pyJson v ++ ", " ++ pyJsonElems rest
end

/-- Modelled from the spec: `routing.py` (class `MatchedRule`) is not
included under `src/`; shape per spec §3 (`matched_rules` entries: handler,
condition description, priority) and the construction site
`supervisor.py:397-401`. -/
structure MatchedRule where
  node : String
  condition : String
  priority : Int
  deriving DecidableEq

/-- Modelled from the spec: `routing.py` (class `RoutingReason`) is not
included under `src/`; shape per spec §3 and the construction sites in
`decide_with_trace` (decision type, matched rules, arbitration flag and
rationale). -/
structure RoutingReason where
  decision_type : String
  matched_rules : List MatchedRule := []
  llm_used : Bool := false
  llm_reasoning : Option String := none
  deriving DecidableEq

/-- Modelled from the spec: `routing.py` (class `RoutingDecision`) is not
included under `src/`; shape per spec §3.  `selected_node` carries the value
the supervisor passes in (a handler name or the terminal sentinel `done`). -/
structure RoutingDecision where
  selected_node : Value
  reason : RoutingReason
  deriving DecidableEq

/-- `SupervisorDecision` (`supervisor.py:24`). -/
structure SupervisorDecision where
  next_node : String
  reasoning : String := ""
  deriving DecidableEq

/-- The outcome of one Arbitrator (LLM) invocation
(`structured_llm.ainvoke`, `supervisor.py:340`): either a structured
decision or an exception. -/
inductive LLMOutcome where
  | result (next_node : String) (reasoning : String)
  | raises

/-- The external Arbitrator as a function of the full prompt text passed to
`ainvoke`.  The tracing `config` argument also passed there carries only
observability metadata and is not modelled as an input. -/
abbrev Arbitrator := String → LLMOutcome

/-- The behaviour of the `self.registry.build_llm_prompt(self.name, state,
context=context)` call (`supervisor.py:336`) for whatever registry object
the supervisor was constructed with: inputs are the supervisor name, the
state and the context string; the call either returns a prompt or raises.
It is a parameter (rather than derived from `NodeRegistry`) because the
supervisor accepts any registry object, and the concrete `NodeRegistry`
rejects this very call (see `nodeRegistryPromptBuilder`). -/
abbrev PromptBuilder := String → State → String → Except Unit String

/-- `GenericSupervisor` (`supervisor.py:72`): supervisor name, optional
Arbitrator (`llm`), registry, iteration limit and terminal response types.
The optional `context_builder` hook is `None` throughout the claims and is
not modelled. -/
structure GenericSupervisor where
  name : String
  llm : Option Arbitrator
  registry : NodeRegistry
  max_iterations : Int
  terminal_response_types : List String

/-- Modelled from the spec: `contracts.py` (`NodeContract.get_llm_hints`) is
not included under `src/`; per spec §3/§4.1 the hints are the conditions'
optional free-text `llm_hint`s, shown only to the Arbitrator. -/
def NodeContract.getLLMHints (c : NodeContract) : List String :=
  c.trigger_conditions.filterMap (·.llm_hint)

/-- The prompt text of `NodeRegistry.build_llm_prompt`
(`registry.py:186-206`), one bullet per node of the supervisor plus the
terminal sentinel. -/
def buildLLMPromptText (reg : NodeRegistry) (supervisor : String) : String :=
  let nodeLine := fun (c : NodeContract) =>
    match c.getLLMHints with
    | [] => "- **" ++ c.name ++ "**: " ++ c.description
    | hints => "- **" ++ c.name ++ "**: " ++ c.description
        ++ " (" ++ String.intercalate "; " hints ++ ")"
  let lines := "Choose the next action based on the current state:\n"
    :: (reg.contracts.filter (fun c => c.supervisor == supervisor)).map nodeLine
    ++ ["\n- **done**: Complete the current flow\n", "Return only the action name."]
  String.intercalate "\n" lines

/-- The parameters `NodeRegistry.build_llm_prompt` accepts
(`registry.py:186`: `def build_llm_prompt(self, supervisor: str, state:
dict) -> str`). -/
def buildLLMPromptParamNames : List String := ["supervisor", "state"]

/-- The extra keyword arguments the supervisor's arbitration phase passes to
`build_llm_prompt` (`supervisor.py:336`: `context=context`). -/
def supervisorCallKeywords : List String := ["context"]

/-- Python call compatibility: every keyword argument must name a declared
parameter, otherwise the call raises `TypeError`. -/
def acceptsKeywords (params kwargs : List String) : Bool :=
  kwargs.all params.contains

/-- The concrete `NodeRegistry`'s behaviour under the supervisor's
`build_llm_prompt(self.name, state, context=context)` call: since
`build_llm_prompt` declares no `context` parameter, the call raises
`TypeError` before the prompt body is ever built. -/
def nodeRegistryPromptBuilder (reg : NodeRegistry) : PromptBuilder :=
  fun supervisor _state _context =>
    if acceptsKeywords buildLLMPromptParamNames supervisorCallKeywords then
      .ok (buildLLMPromptText reg supervisor)
    else
      .error ()

/-- The condition-description formatting shared by `_build_matched_rules`
(`supervisor.py:385-394`) and `_format_rule_candidates_with_reasons`
(`supervisor.py:256-265`): the `when` entries joined as `k=v`, else the
`when_not` entries as `NOT k=v`, else `(always)`. -/
def whenParts : VDict → List String
  | .nil => []
  | .cons k v rest => (k ++ "=" ++ pyStr v) :: whenParts rest

def whenNotParts : VDict → List String
  | .nil => []
  | .cons k v rest => ("NOT " ++ k ++ "=" ++ pyStr v) :: whenNotParts rest

def describeCondition (c : TriggerCondition) : String :=
  if !c.when.isEmpty then String.intercalate " AND " (whenParts c.when)
  else if !c.when_not.isEmpty then String.intercalate " AND " (whenNotParts c.when_not)
  else "(always)"

/-- The inner loop of both formatters: the description of the first
condition whose priority equals the reported one, `""` when none does. -/
def condStrForPriority (conds : List TriggerCondition) (p : Int) : String :=
  match conds.find? (fun c => c.priority == p) with
  | some c => describeCondition c
  | none => ""

/-- `GenericSupervisor._build_matched_rules` (`supervisor.py:371`): one
`MatchedRule` per match whose contract is still registered (`continue` on a
missing contract), with `condition_str or "(unknown)"`. -/
def buildMatchedRules (reg : NodeRegistry) (matchList : List (Int × String)) :
    List MatchedRule :=
  matchList.filterMap (fun pn =>
    match reg.getContract pn.2 with
    | none => none
    | some c =>
      let cs := condStrForPriority c.trigger_conditions pn.1
      some { node := pn.2
             condition := if cs == "" then "(unknown)" else cs
             priority := pn.1 })

/-- The enumerated loop of `_select_top_matches` (`supervisor.py:191-203`):
take the first three matches and then any further match tied with the last
taken priority, stopping at the first lower one. -/
def selectTopAux : List (Int × String) → Nat → Int → List String
  | [], _, _ => []
  | (prio, name) :: rest, i, last =>
    if i < 3 then name :: selectTopAux rest (i + 1) prio
    else if prio == last then name :: selectTopAux rest (i + 1) last
    else []

/-- `GenericSupervisor._select_top_matches` (`supervisor.py:186`). -/
def selectTopMatches (matchList : List (Int × String)) : List String :=
  if matchList.isEmpty then [] else selectTopAux matchList 0 (-1)

/-- `GenericSupervisor._format_rule_candidates_with_reasons`
(`supervisor.py:230`). -/
def formatRuleCandidatesWithReasons (reg : NodeRegistry)
    (matchList : List (Int × String)) (candidates : List String) : String :=
  if candidates.isEmpty then "(none)"
  else
    let lines := matchList.filterMap (fun pn =>
      if !(candidates.contains pn.2) then none
      else
        match reg.getContract pn.2 with
        | none => some ("- " ++ pn.2 ++ " (P" ++ toString pn.1 ++ ")")
        | some c =>
          let cs := condStrForPriority c.trigger_conditions pn.1
          if cs != "" then
            some ("- " ++ pn.2 ++ " (P" ++ toString pn.1 ++ "): matched because " ++ cs)
          else some ("- " ++ pn.2 ++ " (P" ++ toString pn.1 ++ ")"))
    if lines.isEmpty then "(none)" else String.intercalate "\n" lines

/-- The context text assembled by `_decide_with_llm` (`supervisor.py:290-333`)
with no custom `context_builder`: the sorted default slice set serialized as
JSON, the rule candidates with reasons, and the previous suggestion. -/
def buildArbitrationContext (s : GenericSupervisor) (state : State)
    (matchList : List (Int × String)) (rule_candidates : List String)
    (child_decision : Option Value) : String :=
  let contextSlices := ["_internal", "request", "response"]
  let stateParts := contextSlices.filterMap
    (fun n => (state.get? n).map (fun v => n ++ ": " ++ pyJson v))
  let stateSummary :=
    if stateParts.isEmpty then "(no state)" else String.intercalate "\n" stateParts
  "\nCurrent State:\n" ++ stateSummary
    ++ "\n\nHigh priority system rules suggest:\n"
    ++ formatRuleCandidatesWithReasons s.registry matchList rule_candidates
    ++ "\n\nLast active node suggested: "
    ++ (match child_decision with | some v => pyStr v | none => "None") ++ "\n"

/-- The system preamble prepended to the prompt (`supervisor.py:341-343`). -/
def systemPrompt (name : String) : String :=
  "System: You are a decision-making supervisor for a " ++ name
    ++ " flow. If \x27High priority system rules\x27 are provided, you MUST select one of them. Otherwise, prioritize user intent.\n\n"

/-- `GenericSupervisor._decide_with_llm` (`supervisor.py:275`).  The whole
body runs inside `try`, so a raising prompt-builder call or Arbitrator call
yields `none` (`except` at `supervisor.py:367` returns `None`).  A returned
handler outside the registered set plus `done` is substituted with the top
rule candidate when one exists, else absorbed to `none`. -/
def decideWithLLM (s : GenericSupervisor) (arb : Arbitrator)
    (pb : PromptBuilder) (state : State) (matchList : List (Int × String))
    (rule_candidates : List String) (child_decision : Option Value) :
    Option SupervisorDecision :=
  let context := buildArbitrationContext s state matchList rule_candidates child_decision
  match pb s.name state context with
  | .error _ => none
  | .ok prompt =>
    match arb (systemPrompt s.name ++ prompt) with
    | .raises => none
    | .result next reasoning =>
      if ((s.registry.getSupervisorNodes s.name) ++ ["done"]).contains next then
        some { next_node := next, reasoning := reasoning }
      else
        match rule_candidates with
        | c :: _ =>
          some { next_node := c
                 reasoning := "LLM returned invalid \x27" ++ next
                   ++ "\x27, using rule candidate" }
        | [] => none

/-- `GenericSupervisor._check_immediate_rules` (`supervisor.py:173`), taking
the already-extracted response slice (the `AttributeError` a non-dict
response slice raises at `supervisor.py:179` is hoisted into
`decideWithTrace`). -/
def checkImmediateRules (s : GenericSupervisor) (response : VDict) :
    Option String :=
  if s.terminal_response_types.any
      (fun t => pyEq (response.get "response_type") (.vstr t)) then
    some "done"
  else none

/-- Phase 0.5 of `decide_with_trace` (`supervisor.py:444-461`): when the
inbound action is `answer` and a truthy `interview.last_question` records a
truthy `node_id`, route back to it.  Non-dict request/interview slices are
guarded by `isinstance` checks in the source; a non-dict `last_question` is
read with `getattr(lq, "node_id", None)`, which on the plain data values
modelled here yields `None`. -/
def explicitRouteOf (state : State) : Option Value :=
  let req := state.getD "request" (.vdict .nil)
  let action := match req with | .vdict d => d.get "action" | _ => .vnone
  if pyEq action (.vstr "answer") then
    let interview := state.getD "interview" (.vdict .nil)
    let lq := match interview with | .vdict d => d.get "last_question" | _ => .vnone
    let node_id :=
      if pyTruthy lq then
        match lq with | .vdict d => d.get "node_id" | _ => .vnone
      else .vnone
    if pyTruthy node_id then some node_id else none
  else none

/-- The child-suggestion extraction of `decide_with_trace`
(`supervisor.py:472-477`): the previously recorded decision, when truthy and
different from the terminal sentinel. -/
def childDecisionOf (internal : VDict) : Option Value :=
  let previous_decision := internal.get "decision"
  if pyTruthy previous_decision && !pyEq previous_decision (.vstr "done") then
    some previous_decision
  else none

/-- Phase 2 of `decide_with_trace` (`supervisor.py:480-487`): arbitration
runs only when an Arbitrator is configured. -/
def llmPhase (s : GenericSupervisor) (pb : PromptBuilder) (state : State)
    (matchList : List (Int × String)) (rule_candidates : List String)
    (child_decision : Option Value) : Option SupervisorDecision :=
  match s.llm with
  | some arb => decideWithLLM s arb pb state matchList rule_candidates child_decision
  | none => none

/-- The pure pipeline of `decide_with_trace` (`supervisor.py:436-518`) after
the internal and response slices have been extracted: terminal-state check,
explicit return-routing, rule evaluation, arbitration, fallback chain. -/
def decideCore (s : GenericSupervisor) (pb : PromptBuilder) (state : State)
    (internal response : VDict) : RoutingDecision :=
  match checkImmediateRules s response with
  | some node =>
    { selected_node := .vstr node, reason := { decision_type := "terminal_state" } }
  | none =>
    match explicitRouteOf state with
    | some nid =>
      { selected_node := nid, reason := { decision_type := "explicit_routing" } }
    | none =>
      let matchList := s.registry.evaluateTriggers s.name state
      let matched_rules := buildMatchedRules s.registry matchList
      let rule_candidates := selectTopMatches matchList
      let child_decision := childDecisionOf internal
      match llmPhase s pb state matchList rule_candidates child_decision with
      | some r =>
        { selected_node := .vstr r.next_node
          reason := { decision_type := "llm_decision"
                      matched_rules := matched_rules
                      llm_used := true
                      llm_reasoning := some r.reasoning } }
      | none =>
        match matchList with
        | (_, n) :: _ =>
          { selected_node := .vstr n
            reason := { decision_type := "rule_match", matched_rules := matched_rules } }
        | [] =>
          match child_decision with
          | some v =>
            { selected_node := v, reason := { decision_type := "fallback" } }
          | none =>
            { selected_node := .vstr "done", reason := { decision_type := "fallback" } }

/-- Python `.get(...)` on a value that must be a dict: non-dicts raise
`AttributeError`. -/
def asDict : Value → Except String VDict
  | .vdict d => .ok d
  | _ => .error "AttributeError"

/-- `GenericSupervisor.decide_with_trace` (`supervisor.py:405`).  The trace
`config` built at `supervisor.py:422-434` feeds only observability metadata
to the Arbitrator call; its sole semantic effect is that a non-dict
`_internal` slice raises there (`state.get("_internal", {}).get(...)`),
as a non-dict response slice does in `_check_immediate_rules`. -/
def GenericSupervisor.decideWithTrace (s : GenericSupervisor)
    (pb : PromptBuilder) (state : State) : Except String RoutingDecision :=
  match asDict (state.getD "_internal" (.vdict .nil)) with
  | .error e => .error e
  | .ok internal =>
    match asDict (state.getD "response" (.vdict .nil)) with
    | .error e => .error e
    | .ok response => .ok (decideCore s pb state internal response)

/-- Modelled from the spec: `routing.py`
(`RoutingDecision.to_supervisor_decision`) is not included under `src/`.
Per spec §3/§6 it reduces the traced decision to the selected handler name
plus the arbitration rationale, if any. -/
def RoutingDecision.toSupervisorDecision (d : RoutingDecision) :
    SupervisorDecision :=
  { next_node := match d.selected_node with | .vstr s => s | v => pyStr v
    reasoning := (d.reason.llm_reasoning).getD "" }

/-- `GenericSupervisor.decide` (`supervisor.py:158`): the convenience
wrapper around `decide_with_trace`. -/
def GenericSupervisor.decide (s : GenericSupervisor) (pb : PromptBuilder)
    (state : State) : Except String SupervisorDecision :=
  (s.decideWithTrace pb state).map RoutingDecision.toSupervisorDecision

/-- Reading the iteration counter for the `>=` comparison at
`supervisor.py:133`: Python bools count as ints, any other non-int value
raises `TypeError` against the int limit. -/
def asPyInt : Value → Except String Int
  | .vint n => .ok n
  | .vbool b => .ok (if b then 1 else 0)
  | _ => .error "TypeError"

/-- `GenericSupervisor.run` (`supervisor.py:118`): the iteration guard and
the partial state update `{"_internal": {**internal, "decision": ...,
iteration_key: ...}}`. -/
def GenericSupervisor.run (s : GenericSupervisor) (pb : PromptBuilder)
    (state : State) : Except String State :=
  match asDict (state.getD "_internal" (.vdict .nil)) with
  | .error e => .error e
  | .ok internal =>
    let iteration_key := s.name ++ "_iteration"
    match asPyInt (internal.getD iteration_key (.vint 0)) with
    | .error e => .error e
    | .ok current_iteration =>
      if current_iteration ≥ s.max_iterations then
        .ok (.cons "_internal"
          (.vdict ((internal.set "decision" (.vstr "done")).set
            iteration_key (.vint current_iteration))) .nil)
      else
        match s.decide pb state with
        | .error e => .error e
        | .ok decision =>
          .ok (.cons "_internal"
            (.vdict ((internal.set "decision" (.vstr decision.next_node)).set
              iteration_key (.vint (current_iteration + 1)))) .nil)

/-- The caller's application of a partial state update (spec §2/§6: the
caller owns the state and merges the returned top-level slices into it). -/
def applyUpdate : State → State → State
  | state, .nil => state
  | state, .cons k v rest => applyUpdate (state.set k v) rest

/-! ## Helper lemmas -/

theorem VDict.get?_set_self : ∀ (d : VDict) (k : String) (v : Value),
    (d.set k v).get? k = some v
  | .nil, k, v => by simp [VDict.set, VDict.get?]
  | .cons k0 v0 rest, k, v => by
    by_cases h : k0 = k
    · subst h; simp [VDict.set, VDict.get?]
    · simp only [VDict.set, VDict.get?, beq_iff_eq, if_neg h]
      exact get?_set_self rest k v

theorem VDict.get?_set_ne : ∀ (d : VDict) (k k' : String) (v : Value),
    k' ≠ k → (d.set k v).get? k' = d.get? k'
  | .nil, k, k', v, h => by
    have h2 : ¬(k = k') := fun hh => h hh.symm
    simp [VDict.set, VDict.get?, beq_iff_eq, h2]
  | .cons k0 v0 rest, k, k', v, h => by
    by_cases h0 : k0 = k
    · subst h0
      have h2 : ¬(k0 = k') := fun hh => h hh.symm
      simp [VDict.set, VDict.get?, beq_iff_eq, h2]
    · simp only [VDict.set, VDict.get?, beq_iff_eq, if_neg h0]
      by_cases h1 : k0 = k'
      · simp [h1]
      · simp [h1, get?_set_ne rest k k' v h]

theorem applyUpdate_single_get?_ne (state : State) (k k' : String) (v : Value)
    (h : k' ≠ k) :
    (applyUpdate state (.cons k v .nil)).get? k' = state.get? k' := by
  simpa [applyUpdate] using VDict.get?_set_ne state k k' v h

theorem mem_insertDesc {x y : Int × String} {l : List (Int × String)} :
    y ∈ insertDesc x l ↔ y = x ∨ y ∈ l := by
  induction l with
  | nil => simp [insertDesc]
  | cons z zs ih =>
    simp only [insertDesc]
    split
    · simp
    · simp [ih]; tauto

theorem mem_sortDesc {y : Int × String} {l : List (Int × String)} :
    y ∈ sortDesc l ↔ y ∈ l := by
  induction l with
  | nil => simp [sortDesc]
  | cons x xs ih => simp [sortDesc, mem_insertDesc, ih]

theorem pairwise_insertDesc (x : Int × String) (l : List (Int × String))
    (h : l.Pairwise (fun a b => b.1 ≤ a.1)) :
    (insertDesc x l).Pairwise (fun a b => b.1 ≤ a.1) := by
  induction l with
  | nil => simp [insertDesc]
  | cons y ys ih =>
    rcases List.pairwise_cons.mp h with ⟨hy, hys⟩
    simp only [insertDesc]
    split
    · rename_i hxy
      refine List.pairwise_cons.mpr ⟨?_, h⟩
      intro z hz
      rcases List.mem_cons.mp hz with rfl | hz'
      · exact hxy
      · exact le_trans (hy z hz') hxy
    · rename_i hxy
      refine List.pairwise_cons.mpr ⟨?_, ih hys⟩
      intro z hz
      rcases mem_insertDesc.mp hz with rfl | hz'
      · omega
      · exact hy z hz'

theorem pairwise_sortDesc (l : List (Int × String)) :
    (sortDesc l).Pairwise (fun a b => b.1 ≤ a.1) := by
  induction l with
  | nil => simp [sortDesc]
  | cons x xs ih => exact pairwise_insertDesc x (sortDesc xs) ih

theorem filter_insertDesc (x : Int × String) (l : List (Int × String))
    (p : Int) :
    (insertDesc x l).filter (fun z => z.1 == p) =
      if x.1 == p then x :: l.filter (fun z => z.1 == p)
      else l.filter (fun z => z.1 == p) := by
  induction l with
  | nil => by_cases hx : x.1 = p <;> simp [insertDesc, List.filter_cons, hx]
  | cons y ys ih =>
    simp only [insertDesc]
    split
    · rw [List.filter_cons]
    · rename_i hxy
      rw [List.filter_cons, List.filter_cons]
      by_cases hy : y.1 = p
      · have hx : ¬(x.1 = p) := by omega
        simp [hy, hx, ih]
      · by_cases hx : x.1 = p <;> simp [hx, hy, ih]

theorem filter_sortDesc (l : List (Int × String)) (p : Int) :
    (sortDesc l).filter (fun z => z.1 == p) = l.filter (fun z => z.1 == p) := by
  induction l with
  | nil => rfl
  | cons x xs ih =>
    simp only [sortDesc, filter_insertDesc, ih, List.filter_cons]

/-- The accumulator step of `highestPriorityAux`, isolated. -/
def bumpMax : Option Int → Int → Option Int
  | none, p => some p
  | some h, p => some (if p > h then p else h)

/-- The running maximum expressed over the list of satisfied priorities. -/
def foldMax : Option Int → List Int → Option Int
  | acc, [] => acc
  | acc, p :: ps => foldMax (bumpMax acc p) ps

theorem highestPriorityAux_eq_foldMax (reg : NodeRegistry) (state : State) :
    ∀ (conds : List TriggerCondition) (acc : Option Int),
      highestPriorityAux reg state conds acc =
        foldMax acc ((conds.filter (reg.evaluateCondition · state)).map (·.priority)) := by
  intro conds
  induction conds with
  | nil => intro acc; rfl
  | cons c cs ih =>
    intro acc
    by_cases h : reg.evaluateCondition c state = true
    · simp only [highestPriorityAux, h, if_true, List.filter_cons, List.map_cons, foldMax]
      rw [ih]
      congr 1
      cases acc with
      | none => rfl
      | some a =>
        simp only [bumpMax]
        by_cases hpa : c.priority > a <;> simp [hpa]
    · simp only [highestPriorityAux, List.filter_cons, h, if_false]
      exact ih acc

theorem foldMax_eq_some_iff :
    ∀ (ps : List Int) (acc : Option Int) (p : Int),
      foldMax acc ps = some p ↔
        ((acc = some p ∨ p ∈ ps) ∧ (∀ a, acc = some a → a ≤ p) ∧
          ∀ q ∈ ps, q ≤ p) := by
  intro ps
  induction ps with
  | nil =>
    intro acc p
    constructor
    · intro h
      simp only [foldMax] at h
      refine ⟨Or.inl h, ?_, by simp⟩
      intro a ha
      rw [h] at ha
      cases ha
      exact le_refl p
    · rintro ⟨h | h, _, _⟩
      · exact h
      · exact absurd h (by simp)
  | cons p0 ps ih =>
    intro acc p
    show foldMax (bumpMax acc p0) ps = some p ↔ _
    rw [ih]
    cases acc with
    | none =>
      simp only [bumpMax, Option.some.injEq]
      constructor
      · rintro ⟨h1, h2, h3⟩
        refine ⟨Or.inr ?_, by simp, ?_⟩
        · rcases h1 with rfl | h1
          · simp
          · simp [h1]
        · intro q hq
          rcases List.mem_cons.mp hq with rfl | hq'
          · exact h2 q rfl
          · exact h3 q hq'
      · rintro ⟨h1, _, h3⟩
        have hp0 : p0 ≤ p := h3 p0 (by simp)
        refine ⟨?_, fun a ha => by rw [← ha]; exact hp0, fun q hq => h3 q (by simp [hq])⟩
        rcases h1 with h1 | h1
        · simp at h1
        · rcases List.mem_cons.mp h1 with rfl | h1'
          · exact Or.inl rfl
          · exact Or.inr h1'
    | some h =>
      simp only [bumpMax, Option.some.injEq]
      constructor
      · rintro ⟨h1, h2, h3⟩
        have hh : h ≤ p := by
          have := h2 (if p0 > h then p0 else h) rfl
          split at this <;> omega
        have hp0 : p0 ≤ p := by
          have := h2 (if p0 > h then p0 else h) rfl
          split at this <;> omega
        refine ⟨?_, fun a ha => by cases ha; exact hh, ?_⟩
        · rcases h1 with h1 | h1
          · split at h1 <;> simp [h1]
          · simp [h1]
        · intro q hq
          rcases List.mem_cons.mp hq with rfl | hq'
          · exact hp0
          · exact h3 q hq'
      · rintro ⟨h1, h2, h3⟩
        have hh : h ≤ p := h2 h rfl
        have hp0 : p0 ≤ p := h3 p0 (by simp)
        refine ⟨?_, ?_, fun q hq => h3 q (by simp [hq])⟩
        · rcases h1 with h1 | h1
          · cases h1
            left; split <;> omega
          · rcases List.mem_cons.mp h1 with rfl | h1'
            · left; split <;> omega
            · exact Or.inr h1'
        · rintro a rfl
          split <;> omega

theorem highestPriority_eq_some_iff (reg : NodeRegistry) (state : State)
    (conds : List TriggerCondition) (p : Int) :
    highestPriority reg state conds = some p ↔
      ((∃ c ∈ conds, reg.evaluateCondition c state = true ∧ c.priority = p) ∧
        ∀ c ∈ conds, reg.evaluateCondition c state = true → c.priority ≤ p) := by
  unfold highestPriority
  rw [highestPriorityAux_eq_foldMax, foldMax_eq_some_iff]
  constructor
  · rintro ⟨h1, _, h3⟩
    rcases h1 with h1 | h1
    · simp at h1
    · rcases List.mem_map.mp h1 with ⟨c, hc, rfl⟩
      rcases List.mem_filter.mp hc with ⟨hc1, hc2⟩
      refine ⟨⟨c, hc1, by simpa using hc2, rfl⟩, ?_⟩
      intro c' hc' he'
      exact h3 c'.priority (List.mem_map.mpr ⟨c', List.mem_filter.mpr ⟨hc', by simp [he']⟩, rfl⟩)
  · rintro ⟨⟨c, hc, he, rfl⟩, h2⟩
    refine ⟨Or.inr ?_, by simp, ?_⟩
    · exact List.mem_map.mpr ⟨c, List.mem_filter.mpr ⟨hc, by simp [he]⟩, rfl⟩
    · intro q hq
      rcases List.mem_map.mp hq with ⟨c', hc', rfl⟩
      rcases List.mem_filter.mp hc' with ⟨hc'1, hc'2⟩
      exact h2 c' hc'1 (by simpa using hc'2)

theorem evaluateTriggers_mem_iff (reg : NodeRegistry) (supervisor : String)
    (state : State) (p : Int) (n : String) :
    (p, n) ∈ reg.evaluateTriggers supervisor state ↔
      ∃ c ∈ reg.contracts, c.supervisor = supervisor ∧ c.name = n ∧
        (∃ cond ∈ c.trigger_conditions,
          reg.evaluateCondition cond state = true ∧ cond.priority = p) ∧
        ∀ cond ∈ c.trigger_conditions,
          reg.evaluateCondition cond state = true → cond.priority ≤ p := by
  unfold NodeRegistry.evaluateTriggers
  rw [mem_sortDesc]
  unfold evalCandidates
  rw [List.mem_filterMap]
  constructor
  · rintro ⟨c, hc, hmap⟩
    rcases List.mem_filter.mp hc with ⟨hc1, hc2⟩
    rcases Option.map_eq_some'.mp hmap with ⟨q, hq, heq⟩
    obtain ⟨rfl, rfl⟩ : q = p ∧ c.name = n := by
      constructor <;> [exact congrArg Prod.fst heq; exact congrArg Prod.snd heq]
    rcases (highestPriority_eq_some_iff reg state c.trigger_conditions q).mp hq with ⟨h1, h2⟩
    exact ⟨c, hc1, by simpa using hc2, rfl, h1, h2⟩
  · rintro ⟨c, hc, hsup, rfl, h1, h2⟩
    refine ⟨c, List.mem_filter.mpr ⟨hc, by simp [hsup]⟩, ?_⟩
    rw [(highestPriority_eq_some_iff reg state c.trigger_conditions p).mpr ⟨h1, h2⟩]
    rfl

theorem decideWithTrace_ok (s : GenericSupervisor) (pb : PromptBuilder)
    (state : State) (internal response : VDict)
    (hi : state.getD "_internal" (.vdict .nil) = .vdict internal)
    (hr : state.getD "response" (.vdict .nil) = .vdict response) :
    s.decideWithTrace pb state = .ok (decideCore s pb state internal response) := by
  unfold GenericSupervisor.decideWithTrace
  rw [hi, hr]
  rfl

theorem decideWithLLM_raises (s : GenericSupervisor) (arb : Arbitrator)
    (pb : PromptBuilder) (state : State) (matchList : List (Int × String))
    (rule_candidates : List String) (child_decision : Option Value)
    (harb : ∀ x, arb x = .raises) :
    decideWithLLM s arb pb state matchList rule_candidates child_decision = none := by
  simp only [decideWithLLM]
  cases h : pb s.name state
      (buildArbitrationContext s state matchList rule_candidates child_decision) with
  | error e => rfl
  | ok prompt => simp [harb]

theorem nodeRegistryPromptBuilder_error (reg : NodeRegistry) (sup : String)
    (state : State) (context : String) :
    nodeRegistryPromptBuilder reg sup state context = .error () := rfl

theorem decideWithLLM_realRegistry (s : GenericSupervisor) (arb : Arbitrator)
    (reg : NodeRegistry) (state : State) (matchList : List (Int × String))
    (rule_candidates : List String) (child_decision : Option Value) :
    decideWithLLM s arb (nodeRegistryPromptBuilder reg) state matchList
      rule_candidates child_decision = none := by
  simp only [decideWithLLM]
  rw [nodeRegistryPromptBuilder_error]

theorem llmPhase_none_of_no_llm (s : GenericSupervisor) (pb : PromptBuilder)
    (state : State) (matchList : List (Int × String))
    (rule_candidates : List String) (child_decision : Option Value)
    (hs : s.llm = none) :
    llmPhase s pb state matchList rule_candidates child_decision = none := by
  simp [llmPhase, hs]

theorem llmPhase_realRegistry (s : GenericSupervisor) (reg : NodeRegistry)
    (state : State) (matchList : List (Int × String))
    (rule_candidates : List String) (child_decision : Option Value) :
    llmPhase s (nodeRegistryPromptBuilder reg) state matchList rule_candidates
      child_decision = none := by
  unfold llmPhase
  cases s.llm with
  | none => rfl
  | some arb =>
    simpa using
      decideWithLLM_realRegistry s arb reg state matchList rule_candidates child_decision

theorem decideCore_terminal (s : GenericSupervisor) (pb : PromptBuilder)
    (state : State) (internal response : VDict) (node : String)
    (hterm : checkImmediateRules s response = some node) :
    decideCore s pb state internal response =
      ⟨.vstr node, ⟨"terminal_state", [], false, none⟩⟩ := by
  simp [decideCore, hterm]

theorem decideCore_explicit (s : GenericSupervisor) (pb : PromptBuilder)
    (state : State) (internal response : VDict) (nid : Value)
    (hterm : checkImmediateRules s response = none)
    (hexp : explicitRouteOf state = some nid) :
    decideCore s pb state internal response =
      ⟨nid, ⟨"explicit_routing", [], false, none⟩⟩ := by
  simp [decideCore, hterm, hexp]

theorem decideCore_llm (s : GenericSupervisor) (pb : PromptBuilder)
    (state : State) (internal response : VDict) (r : SupervisorDecision)
    (hterm : checkImmediateRules s response = none)
    (hexp : explicitRouteOf state = none)
    (hllm : llmPhase s pb state (s.registry.evaluateTriggers s.name state)
      (selectTopMatches (s.registry.evaluateTriggers s.name state))
      (childDecisionOf internal) = some r) :
    decideCore s pb state internal response =
      ⟨.vstr r.next_node,
        ⟨"llm_decision",
          buildMatchedRules s.registry (s.registry.evaluateTriggers s.name state),
          true, some r.reasoning⟩⟩ := by
  simp [decideCore, hterm, hexp, hllm]

theorem decideCore_phase3 (s : GenericSupervisor) (pb : PromptBuilder)
    (state : State) (internal response : VDict)
    (hterm : checkImmediateRules s response = none)
    (hexp : explicitRouteOf state = none)
    (hllm : llmPhase s pb state (s.registry.evaluateTriggers s.name state)
      (selectTopMatches (s.registry.evaluateTriggers s.name state))
      (childDecisionOf internal) = none) :
    decideCore s pb state internal response =
      match s.registry.evaluateTriggers s.name state with
      | (_, n) :: _ =>
        ⟨.vstr n,
          ⟨"rule_match",
            buildMatchedRules s.registry (s.registry.evaluateTriggers s.name state),
            false, none⟩⟩
      | [] =>
        match childDecisionOf internal with
        | some v => ⟨v, ⟨"fallback", [], false, none⟩⟩
        | none => ⟨.vstr "done", ⟨"fallback", [], false, none⟩⟩ := by
  simp [decideCore, hterm, hexp, hllm]

/-! ## Concrete fixtures used by witnesses and counterexamples -/

/-- A contract in the style of the tech-support example nodes. -/
def netCondition : TriggerCondition :=
  { priority := 90
    when := .cons "request.category" (.vstr "network") .nil
    llm_hint := some "network problems" }

def netContract : NodeContract :=
  { name := "network_node"
    description := "Handles network issues"
    reads := ["request"]
    writes := ["response"]
    supervisor := "support"
    trigger_conditions := [netCondition] }

def regSupport : NodeRegistry :=
  { contracts := [netContract]
    validSlices := ["request", "response", "_internal"] }

def supSupport : GenericSupervisor :=
  { name := "support"
    llm := none
    registry := regSupport
    max_iterations := 5
    terminal_response_types := ["final_answer"] }

def pbSupport : PromptBuilder := nodeRegistryPromptBuilder regSupport

def stateNet : State :=
  .cons "request" (.vdict (.cons "category" (.vstr "network") .nil)) .nil

/-- `stateNet` with the iteration counter already beyond the limit. -/
def stateNetOver : State :=
  .cons "request" (.vdict (.cons "category" (.vstr "network") .nil))
    (.cons "_internal" (.vdict (.cons "support_iteration" (.vint 9) .nil)) .nil)

/-- Counter `6` with `max_iterations = 5`. -/
def stateOver : State :=
  .cons "_internal" (.vdict (.cons "support_iteration" (.vint 6) .nil)) .nil

/-- Previous decision `ghost`, a name no registry knows. -/
def stateGhost : State :=
  .cons "_internal" (.vdict (.cons "decision" (.vstr "ghost") .nil)) .nil

def supOrphan : GenericSupervisor :=
  { name := "support"
    llm := none
    registry := NodeRegistry.empty
    max_iterations := 5
    terminal_response_types := ["final_answer"] }

def stateFinal : State :=
  .cons "request" (.vdict (.cons "category" (.vstr "network") .nil))
    (.cons "response" (.vdict (.cons "response_type" (.vstr "final_answer") .nil)) .nil)

def stateAnswer : State :=
  .cons "request" (.vdict (.cons "action" (.vstr "answer") .nil))
    (.cons "interview" (.vdict (.cons "last_question"
      (.vdict (.cons "node_id" (.vstr "clarification_node") .nil)) .nil)) .nil)

/-! ## Claim theorems -/

/-- **C8.** Registering two handlers with the same contract name fails: the
second `register()` call raises (`Node <name> is already registered`) to the
caller, the second registration is not recorded (lookup of the name still
yields the first contract), and the first registration remains active and
unchanged.  In the source the duplicate check (`registry.py:51`) precedes
the inserts (`registry.py:54-55`), so the failed call leaves the registry
exactly as it was — in this embedding the failed call returns only the
error, never a new registry value. -/
theorem c8_duplicate_registration :
    ∀ (reg reg1 : NodeRegistry) (c1 c2 : NodeContract),
      reg.register c1 = .ok reg1 → c2.name = c1.name →
      reg1.register c2 = .error ("Node " ++ c2.name ++ " is already registered")
      ∧ reg1.getContract c1.name = some c1 := by
  intro reg reg1 c1 c2 h1 h2
  unfold NodeRegistry.register at h1
  split at h1
  · cases h1
  · rename_i hna
    cases h1
    have hnone : ∀ c0 ∈ reg.contracts, ¬(c0.name == c1.name) = true := by
      intro c0 hc0
      exact fun hb => hna (List.any_eq_true.mpr ⟨c0, hc0, hb⟩)
    constructor
    · unfold NodeRegistry.register
      have hany : (reg.contracts ++ [c1]).any (fun c0 => c0.name == c2.name) = true := by
        refine List.any_eq_true.mpr ⟨c1, by simp, ?_⟩
        simp [h2]
      simp [hany]
    · unfold NodeRegistry.getContract
      have hfind : reg.contracts.find? (fun c => c.name == c1.name) = none :=
        List.find?_eq_none.mpr hnone
      rw [List.find?_append, hfind]
      simp

theorem c8_duplicate_registration_witness :
    regSupport.register netContract =
      .error ("Node " ++ netContract.name ++ " is already registered")
    ∧ regSupport.getContract "network_node" = some netContract := by
  have h := c8_duplicate_registration NodeRegistry.empty regSupport netContract
    netContract rfl rfl
  exact h

/-- **C4.** `evaluate_triggers` reports each handler of the given workflow
at the maximum priority among its satisfied conditions (membership in the
result is exactly: some condition of the handler is satisfied at that
priority and no satisfied condition exceeds it, which in particular excludes
every handler with no satisfied condition), the result is sorted by priority
descending, and handlers tied at equal priority keep registration order: the
subsequence at any fixed priority equals the registration-ordered candidate
list at that priority (Python's `list.sort` is stable). -/
theorem c4_evaluate_triggers_ranking :
    (∀ (reg : NodeRegistry) (supervisor : String) (state : State)
        (p : Int) (n : String),
      (p, n) ∈ reg.evaluateTriggers supervisor state ↔
        ∃ c ∈ reg.contracts, c.supervisor = supervisor ∧ c.name = n ∧
          (∃ cond ∈ c.trigger_conditions,
            reg.evaluateCondition cond state = true ∧ cond.priority = p) ∧
          ∀ cond ∈ c.trigger_conditions,
            reg.evaluateCondition cond state = true → cond.priority ≤ p)
    ∧ (∀ (reg : NodeRegistry) (supervisor : String) (state : State),
      (reg.evaluateTriggers supervisor state).Pairwise (fun a b => b.1 ≤ a.1))
    ∧ (∀ (reg : NodeRegistry) (supervisor : String) (state : State) (p : Int),
      (reg.evaluateTriggers supervisor state).filter (fun z => z.1 == p) =
        (evalCandidates reg supervisor state).filter (fun z => z.1 == p)) := by
  refine ⟨?_, ?_, ?_⟩
  · intro reg supervisor state p n
    exact evaluateTriggers_mem_iff reg supervisor state p n
  · intro reg supervisor state
    exact pairwise_sortDesc _
  · intro reg supervisor state p
    exact filter_sortDesc _ p

theorem c4_evaluate_triggers_ranking_witness :
    (90, "network_node") ∈ regSupport.evaluateTriggers "support" stateNet
    ∧ (regSupport.evaluateTriggers "support" stateNet).Pairwise
        (fun a b => b.1 ≤ a.1) := by
  constructor
  · refine (c4_evaluate_triggers_ranking.1 regSupport "support" stateNet
      90 "network_node").mpr ?_
    refine ⟨netContract, by simp [regSupport], rfl, rfl,
      ⟨netCondition, by simp [netContract], by decide, rfl⟩, ?_⟩
    intro cond hcond _
    have : cond = netCondition := by
      simpa [netContract] using hcond
    simp [this, netCondition]
  · exact c4_evaluate_triggers_ranking.2.1 regSupport "support" stateNet

/-- **C5 (counterexample).** The claim says an unresolved path's absent
value "matches only an expectation of exactly that absence".  On the code,
an absent value also matches an expected literal `False` (the truthiness
branch: `bool(None) is False`): the condition
`when = {"request.flag": False}` is satisfied against the empty state, even
though the expectation `False` is not the absent value `None`. -/
theorem c5_absent_matches_false :
    NodeRegistry.empty.getStateValue VDict.nil "request.flag" = .vnone
    ∧ matchesExpected .vnone (.vbool false) = true
    ∧ NodeRegistry.empty.evaluateCondition
        { priority := 0, when := .cons "request.flag" (.vbool false) .nil,
          when_not := .nil, llm_hint := none } VDict.nil = true
    ∧ Value.vbool false ≠ Value.vnone := by
  exact ⟨rfl, rfl, rfl, by decide⟩

/-- **C5 (as amended).** For every trigger condition and state: a condition
with no predicates always matches; a dotted path is resolved by splitting on
dots and descending through nested maps starting at the named slice; a
boolean expected value matches by truthiness of the resolved value and any
other expected value matches by Python equality; an unresolved path yields
the absent value `None`, which under a *non-boolean* expectation matches
only an expectation of exactly that absence, while under a boolean
expectation truthiness applies, so it also matches an expected `False`. -/
theorem c5_predicate_semantics_amended :
    (∀ (reg : NodeRegistry) (state : State) (p : Int) (hint : Option String),
      reg.evaluateCondition
        { priority := p, when := .nil, when_not := .nil, llm_hint := hint }
        state = true)
    ∧ (∀ (actual : Value) (b : Bool),
      matchesExpected actual (.vbool b) = (pyTruthy actual == b))
    ∧ (∀ (actual expected : Value), (∀ b, expected ≠ .vbool b) →
      matchesExpected actual expected = pyEq actual expected)
    ∧ (∀ (expected : Value),
      (matchesExpected .vnone expected = true ↔
        (expected = .vnone ∨ expected = .vbool false)))
    ∧ (∀ (reg : NodeRegistry) (state : State) (key : String),
      containsDot key = true →
      reg.getStateValue state key =
        match splitDot key with
        | [] => .vnone
        | sliceName :: parts => descendParts (state.getD sliceName (.vdict .nil)) parts) := by
  refine ⟨?_, ?_, ?_, ?_, ?_⟩
  · intro reg state p hint
    rfl
  · intro actual b
    cases b <;> simp [matchesExpected]
  · intro actual expected h
    cases expected with
    | vbool b => exact absurd rfl (h b)
    | vnone => rfl
    | vint n => rfl
    | vstr s => rfl
    | vdict d => rfl
    | vlist l => rfl
  · intro expected
    cases expected with
    | vbool b => cases b <;> simp [matchesExpected, pyTruthy]
    | vnone => simp [matchesExpected, pyEq]
    | vint n => simp [matchesExpected, pyEq]
    | vstr s => simp [matchesExpected, pyEq]
    | vdict d => simp [matchesExpected, pyEq]
    | vlist l => simp [matchesExpected, pyEq]
  · intro reg state key h
    unfold NodeRegistry.getStateValue
    rw [if_pos h]

theorem c5_predicate_semantics_amended_witness :
    NodeRegistry.empty.evaluateCondition
      { priority := 7, when := .nil, when_not := .nil, llm_hint := none }
      VDict.nil = true
    ∧ matchesExpected (.vint 3) (.vbool true) = (pyTruthy (.vint 3) == true)
    ∧ matchesExpected (.vstr "a") (.vstr "a") = pyEq (.vstr "a") (.vstr "a")
    ∧ (matchesExpected .vnone (.vstr "x") = true ↔
        (Value.vstr "x" = .vnone ∨ Value.vstr "x" = .vbool false))
    ∧ NodeRegistry.empty.getStateValue stateNet "request.category" =
        match splitDot "request.category" with
        | [] => .vnone
        | sliceName :: parts =>
          descendParts (stateNet.getD sliceName (.vdict .nil)) parts := by
  refine ⟨c5_predicate_semantics_amended.1 NodeRegistry.empty VDict.nil 7 none,
    c5_predicate_semantics_amended.2.1 (.vint 3) true,
    c5_predicate_semantics_amended.2.2.1 (.vstr "a") (.vstr "a")
      (fun b => by cases b <;> decide),
    c5_predicate_semantics_amended.2.2.2.1 (.vstr "x"),
    c5_predicate_semantics_amended.2.2.2.2 NodeRegistry.empty stateNet
      "request.category" (by decide)⟩

/-- Shared evaluation lemma: the guard branch of `run`
(`supervisor.py:133-141`): with the counter at `n ≥ max_iterations`, the
update records the sentinel and writes the counter back unchanged. -/
theorem run_guard_eq (s : GenericSupervisor) (pb : PromptBuilder)
    (state : State) (internal : VDict) (n : Int)
    (hi : state.getD "_internal" (.vdict .nil) = .vdict internal)
    (hcnt : internal.getD (s.name ++ "_iteration") (.vint 0) = .vint n)
    (hge : n ≥ s.max_iterations) :
    s.run pb state = .ok (.cons "_internal" (.vdict
      ((internal.set "decision" (.vstr "done")).set (s.name ++ "_iteration")
        (.vint n))) .nil) := by
  unfold GenericSupervisor.run
  rw [hi]
  simp only [asDict]
  rw [hcnt]
  simp only [asPyInt]
  rw [if_pos hge]

/-- Shared evaluation lemma: the non-guard branch of `run`
(`supervisor.py:143-156`): the update records the decision and the counter
incremented by one. -/
theorem run_step_eq (s : GenericSupervisor) (pb : PromptBuilder)
    (state : State) (internal : VDict) (n : Int) (d : SupervisorDecision)
    (hi : state.getD "_internal" (.vdict .nil) = .vdict internal)
    (hcnt : internal.getD (s.name ++ "_iteration") (.vint 0) = .vint n)
    (hlt : n < s.max_iterations)
    (hd : s.decide pb state = .ok d) :
    s.run pb state = .ok (.cons "_internal" (.vdict
      ((internal.set "decision" (.vstr d.next_node)).set (s.name ++ "_iteration")
        (.vint (n + 1)))) .nil) := by
  unfold GenericSupervisor.run
  rw [hi]
  simp only [asDict]
  rw [hcnt]
  simp only [asPyInt]
  rw [if_neg (by omega)]
  rw [hd]

/-- The per-workflow iteration key can never collide with the `decision` key
of the internal slice (it always ends in `_iteration`). -/
theorem iterKey_ne_decision (nm : String) : nm ++ "_iteration" ≠ "decision" := by
  intro h
  have h2 := congrArg String.length h
  rw [String.length_append] at h2
  have h3 : "_iteration".length = 10 := rfl
  have h4 : "decision".length = 8 := rfl
  omega

/-- **C1 (counterexample).** The claim says a guard-tripped `run()` holds
the counter "at the limit".  With `max_iterations = 5` and the counter
already at `6`, the update carries the counter at `6`, its current value,
not clamped to the limit `5`. -/
theorem c1_counter_not_clamped :
    supSupport.run pbSupport stateOver =
      .ok (.cons "_internal" (.vdict (.cons "support_iteration" (.vint 6)
        (.cons "decision" (.vstr "done") .nil))) .nil)
    ∧ supSupport.max_iterations = 5
    ∧ Value.vint 6 ≠ Value.vint 5 := by
  exact ⟨rfl, rfl, by decide⟩

/-- **C1 (as amended).** For every state: if the internal slice's
per-workflow iteration counter is at or beyond `max_iterations`, `run()`
immediately returns the terminal sentinel `done` without running the rest of
the pipeline, and the counter is carried unchanged at its current value
(which equals the limit whenever the counter never exceeded it, the only
situation `run`'s own increments can produce); on every invocation that is
not guard-tripped, the returned state update carries the counter incremented
by exactly one. -/
theorem c1_iteration_guard_amended :
    (∀ (s : GenericSupervisor) (pb : PromptBuilder) (state : State)
        (internal : VDict) (n : Int),
      state.getD "_internal" (.vdict .nil) = .vdict internal →
      internal.getD (s.name ++ "_iteration") (.vint 0) = .vint n →
      n ≥ s.max_iterations →
      ∃ ud, s.run pb state = .ok (.cons "_internal" (.vdict ud) .nil)
        ∧ ud.get? "decision" = some (.vstr "done")
        ∧ ud.get? (s.name ++ "_iteration") = some (.vint n))
    ∧ (∀ (s : GenericSupervisor) (pb : PromptBuilder) (state : State)
        (internal : VDict) (n : Int) (d : SupervisorDecision),
      state.getD "_internal" (.vdict .nil) = .vdict internal →
      internal.getD (s.name ++ "_iteration") (.vint 0) = .vint n →
      n < s.max_iterations →
      s.decide pb state = .ok d →
      ∃ ud, s.run pb state = .ok (.cons "_internal" (.vdict ud) .nil)
        ∧ ud.get? "decision" = some (.vstr d.next_node)
        ∧ ud.get? (s.name ++ "_iteration") = some (.vint (n + 1))) := by
  constructor
  · intro s pb state internal n hi hcnt hge
    refine ⟨_, run_guard_eq s pb state internal n hi hcnt hge, ?_, ?_⟩
    · rw [VDict.get?_set_ne _ _ _ _ (Ne.symm (iterKey_ne_decision s.name))]
      exact VDict.get?_set_self internal "decision" (.vstr "done")
    · exact VDict.get?_set_self _ _ _
  · intro s pb state internal n d hi hcnt hlt hd
    refine ⟨_, run_step_eq s pb state internal n d hi hcnt hlt hd, ?_, ?_⟩
    · rw [VDict.get?_set_ne _ _ _ _ (Ne.symm (iterKey_ne_decision s.name))]
      exact VDict.get?_set_self internal "decision" (.vstr d.next_node)
    · exact VDict.get?_set_self _ _ _

theorem c1_iteration_guard_amended_witness :
    (∃ ud, supSupport.run pbSupport stateOver =
        .ok (.cons "_internal" (.vdict ud) .nil)
      ∧ ud.get? "decision" = some (.vstr "done")
      ∧ ud.get? ("support" ++ "_iteration") = some (.vint 6))
    ∧ (∃ ud, supSupport.run pbSupport stateNet =
        .ok (.cons "_internal" (.vdict ud) .nil)
      ∧ ud.get? "decision" = some (.vstr "network_node")
      ∧ ud.get? ("support" ++ "_iteration") = some (.vint 1)) := by
  constructor
  · exact c1_iteration_guard_amended.1 supSupport pbSupport stateOver
      (.cons "support_iteration" (.vint 6) .nil) 6 rfl (by decide) (by decide)
  · exact c1_iteration_guard_amended.2 supSupport pbSupport stateNet
      VDict.nil 0 { next_node := "network_node", reasoning := "" }
      rfl (by decide) (by decide) rfl

/-- **C6.** `decide_with_trace` enforces phase precedence: if the response
slice's `response_type` is in the configured terminal-type set it returns
the terminal sentinel with `decision_type = terminal_state` — for every
state, registry, rule set and Arbitrator, so even if a rule of priority 100
would otherwise match and regardless of arbitration; otherwise, if the
inbound action is `answer` and `interview.last_question.node_id` records
which handler originated the last question, it returns that handler with
`decision_type = explicit_routing`, before any rule evaluation or
arbitration (again for every registry and Arbitrator). -/
theorem c6_phase_precedence :
    (∀ (s : GenericSupervisor) (pb : PromptBuilder) (state : State)
        (internal response : VDict),
      state.getD "_internal" (.vdict .nil) = .vdict internal →
      state.getD "response" (.vdict .nil) = .vdict response →
      s.terminal_response_types.any
        (fun t => pyEq (response.get "response_type") (.vstr t)) = true →
      s.decideWithTrace pb state =
        .ok ⟨.vstr "done", ⟨"terminal_state", [], false, none⟩⟩)
    ∧ (∀ (s : GenericSupervisor) (pb : PromptBuilder) (state : State)
        (internal response req ivd lqd : VDict) (h : String),
      state.getD "_internal" (.vdict .nil) = .vdict internal →
      state.getD "response" (.vdict .nil) = .vdict response →
      s.terminal_response_types.any
        (fun t => pyEq (response.get "response_type") (.vstr t)) = false →
      state.getD "request" (.vdict .nil) = .vdict req →
      req.get "action" = .vstr "answer" →
      state.getD "interview" (.vdict .nil) = .vdict ivd →
      ivd.get "last_question" = .vdict lqd →
      lqd.isEmpty = false →
      lqd.get "node_id" = .vstr h →
      h ≠ "" →
      s.decideWithTrace pb state =
        .ok ⟨.vstr h, ⟨"explicit_routing", [], false, none⟩⟩) := by
  constructor
  · intro s pb state internal response hi hr hany
    rw [decideWithTrace_ok s pb state internal response hi hr]
    rw [decideCore_terminal s pb state internal response "done"
      (by simp [checkImmediateRules, hany])]
  · intro s pb state internal response req ivd lqd h hi hr hany hreq ha hivd hlq hlqne hnid hne
    have hterm : checkImmediateRules s response = none := by
      simp [checkImmediateRules, hany]
    have hb : (h == "") = false := beq_eq_false_iff_ne.mpr hne
    have hexp : explicitRouteOf state = some (.vstr h) := by
      simp only [explicitRouteOf, hreq, ha, hivd, hlq, hnid]
      simp [pyEq, pyTruthy, hlqne, hb]
    rw [decideWithTrace_ok s pb state internal response hi hr]
    rw [decideCore_explicit s pb state internal response (.vstr h) hterm hexp]

theorem c6_phase_precedence_witness :
    supSupport.decideWithTrace pbSupport stateFinal =
      .ok ⟨.vstr "done", ⟨"terminal_state", [], false, none⟩⟩
    ∧ supSupport.decideWithTrace pbSupport stateAnswer =
      .ok ⟨.vstr "clarification_node", ⟨"explicit_routing", [], false, none⟩⟩ := by
  constructor
  · exact c6_phase_precedence.1 supSupport pbSupport stateFinal VDict.nil
      (.cons "response_type" (.vstr "final_answer") .nil) rfl rfl (by decide)
  · exact c6_phase_precedence.2 supSupport pbSupport stateAnswer VDict.nil VDict.nil
      (.cons "action" (.vstr "answer") .nil)
      (.cons "last_question"
        (.vdict (.cons "node_id" (.vstr "clarification_node") .nil)) .nil)
      (.cons "node_id" (.vstr "clarification_node") .nil)
      "clarification_node" rfl rfl (by decide) rfl rfl rfl rfl rfl rfl (by decide)

/-- **C7 (counterexample).** The claim says that with no rule match, the
previous decision is re-suggested only when it is a *known* non-terminal
handler, and that otherwise the terminal sentinel is returned.  The code
never checks the registry: with an empty registry (so `ghost` is not a known
handler) and previous decision `ghost`, `decide_with_trace` returns `ghost`
with `decision_type = fallback` instead of the terminal sentinel. -/
theorem c7_unknown_previous_reused :
    supOrphan.decideWithTrace (nodeRegistryPromptBuilder NodeRegistry.empty)
      stateGhost = .ok ⟨.vstr "ghost", ⟨"fallback", [], false, none⟩⟩
    ∧ supOrphan.registry.getContract "ghost" = none
    ∧ Value.vstr "ghost" ≠ Value.vstr "done" := by
  exact ⟨rfl, rfl, by decide⟩

/-- **C7 (as amended).** For every state with no Arbitrator configured (and
not terminal, no explicit routing): if at least one rule matches, the
decision is the top-ranked match with `decision_type = rule_match`; if none
match and the previous turn's recorded decision is truthy and differs from
the terminal sentinel `done`, that recorded value is returned with
`decision_type = fallback` — whether or not it names a registered handler,
the registry is not consulted; otherwise the terminal sentinel is returned
with `decision_type = fallback`. -/
theorem c7_fallback_chain_amended :
    (∀ (s : GenericSupervisor) (pb : PromptBuilder) (state : State)
        (internal response : VDict) (p : Int) (n : String)
        (rest : List (Int × String)),
      state.getD "_internal" (.vdict .nil) = .vdict internal →
      state.getD "response" (.vdict .nil) = .vdict response →
      s.llm = none →
      checkImmediateRules s response = none →
      explicitRouteOf state = none →
      s.registry.evaluateTriggers s.name state = (p, n) :: rest →
      s.decideWithTrace pb state = .ok ⟨.vstr n,
        ⟨"rule_match", buildMatchedRules s.registry ((p, n) :: rest),
          false, none⟩⟩)
    ∧ (∀ (s : GenericSupervisor) (pb : PromptBuilder) (state : State)
        (internal response : VDict) (v : Value),
      state.getD "_internal" (.vdict .nil) = .vdict internal →
      state.getD "response" (.vdict .nil) = .vdict response →
      s.llm = none →
      checkImmediateRules s response = none →
      explicitRouteOf state = none →
      s.registry.evaluateTriggers s.name state = [] →
      internal.get "decision" = v →
      pyTruthy v = true →
      pyEq v (.vstr "done") = false →
      s.decideWithTrace pb state = .ok ⟨v, ⟨"fallback", [], false, none⟩⟩)
    ∧ (∀ (s : GenericSupervisor) (pb : PromptBuilder) (state : State)
        (internal response : VDict),
      state.getD "_internal" (.vdict .nil) = .vdict internal →
      state.getD "response" (.vdict .nil) = .vdict response →
      s.llm = none →
      checkImmediateRules s response = none →
      explicitRouteOf state = none →
      s.registry.evaluateTriggers s.name state = [] →
      (pyTruthy (internal.get "decision") = false ∨
        pyEq (internal.get "decision") (.vstr "done") = true) →
      s.decideWithTrace pb state =
        .ok ⟨.vstr "done", ⟨"fallback", [], false, none⟩⟩) := by
  refine ⟨?_, ?_, ?_⟩
  · intro s pb state internal response p n rest hi hr hllm hterm hexp hm
    rw [decideWithTrace_ok s pb state internal response hi hr]
    rw [decideCore_phase3 s pb state internal response hterm hexp
      (llmPhase_none_of_no_llm s pb state _ _ _ hllm)]
    simp [hm]
  · intro s pb state internal response v hi hr hllm hterm hexp hm hv htr hnd
    have hcd : childDecisionOf internal = some v := by
      simp [childDecisionOf, hv, htr, hnd]
    rw [decideWithTrace_ok s pb state internal response hi hr]
    rw [decideCore_phase3 s pb state internal response hterm hexp
      (llmPhase_none_of_no_llm s pb state _ _ _ hllm)]
    simp [hm, hcd]
  · intro s pb state internal response hi hr hllm hterm hexp hm hfalse
    have hcd : childDecisionOf internal = none := by
      rcases hfalse with hfalse | hfalse <;> simp [childDecisionOf, hfalse]
    rw [decideWithTrace_ok s pb state internal response hi hr]
    rw [decideCore_phase3 s pb state internal response hterm hexp
      (llmPhase_none_of_no_llm s pb state _ _ _ hllm)]
    simp [hm, hcd]

theorem c7_fallback_chain_amended_witness :
    supSupport.decideWithTrace pbSupport stateNet = .ok ⟨.vstr "network_node",
      ⟨"rule_match", buildMatchedRules regSupport [(90, "network_node")],
        false, none⟩⟩
    ∧ supOrphan.decideWithTrace pbSupport stateGhost =
      .ok ⟨.vstr "ghost", ⟨"fallback", [], false, none⟩⟩
    ∧ supOrphan.decideWithTrace pbSupport VDict.nil =
      .ok ⟨.vstr "done", ⟨"fallback", [], false, none⟩⟩ := by
  refine ⟨?_, ?_, ?_⟩
  · exact c7_fallback_chain_amended.1 supSupport pbSupport stateNet VDict.nil
      VDict.nil 90 "network_node" [] rfl rfl rfl (by decide) (by decide) (by decide)
  · exact c7_fallback_chain_amended.2.1 supOrphan pbSupport stateGhost
      (.cons "decision" (.vstr "ghost") .nil) VDict.nil (.vstr "ghost")
      rfl rfl rfl (by decide) (by decide) (by decide) rfl (by decide) (by decide)
  · exact c7_fallback_chain_amended.2.2 supOrphan pbSupport VDict.nil
      VDict.nil VDict.nil rfl rfl rfl (by decide) (by decide) (by decide)
      (Or.inl (by decide))

/-- A raising Arbitrator, an Arbitrator returning a fixed invalid handler
id, and a prompt builder that always succeeds (the behaviour of the mocked
registries in `tests/test_supervisor.py`). -/
def arbRaises : Arbitrator := fun _ => .raises

def arbBogus : Arbitrator := fun _ => .result "bogus" "because"

def supLLMRaise : GenericSupervisor := { supSupport with llm := some arbRaises }

def supLLMBogus : GenericSupervisor := { supSupport with llm := some arbBogus }

/-- **C2.** With an Arbitrator configured: if the Arbitrator call raises,
`decide_with_trace` completes without raising and yields
`decision_type = rule_match` (the top rule candidate) when rule matches
exist, otherwise `fallback`; if the Arbitrator returns a handler id outside
the registered handlers of the workflow plus the terminal sentinel `done`
and at least one rule candidate exists, the result is the top rule candidate
with a rationale noting the substitution; and for every state whose
`_internal`/`response` slices are maps (the documented state contract), no
decision-time internal failure is surfaced: the call always returns a
well-formed decision. -/
theorem c2_decision_failures_absorbed :
    (∀ (s : GenericSupervisor) (pb : PromptBuilder) (state : State)
        (internal response : VDict) (arb : Arbitrator),
      state.getD "_internal" (.vdict .nil) = .vdict internal →
      state.getD "response" (.vdict .nil) = .vdict response →
      s.llm = some arb →
      (∀ x, arb x = .raises) →
      checkImmediateRules s response = none →
      explicitRouteOf state = none →
      ∃ d, s.decideWithTrace pb state = .ok d ∧
        (∀ (p : Int) (n : String) (rest : List (Int × String)),
          s.registry.evaluateTriggers s.name state = (p, n) :: rest →
          d.reason.decision_type = "rule_match" ∧ d.selected_node = .vstr n) ∧
        (s.registry.evaluateTriggers s.name state = [] →
          d.reason.decision_type = "fallback"))
    ∧ (∀ (s : GenericSupervisor) (f : String → State → String → String)
        (state : State) (internal response : VDict) (arb : Arbitrator)
        (bad r c : String) (rest : List String),
      state.getD "_internal" (.vdict .nil) = .vdict internal →
      state.getD "response" (.vdict .nil) = .vdict response →
      s.llm = some arb →
      (∀ x, arb x = .result bad r) →
      ((s.registry.getSupervisorNodes s.name) ++ ["done"]).contains bad = false →
      checkImmediateRules s response = none →
      explicitRouteOf state = none →
      selectTopMatches (s.registry.evaluateTriggers s.name state) = c :: rest →
      s.decideWithTrace (fun a b cc => .ok (f a b cc)) state = .ok
        ⟨.vstr c, ⟨"llm_decision",
          buildMatchedRules s.registry (s.registry.evaluateTriggers s.name state),
          true,
          some ("LLM returned invalid \x27" ++ bad
            ++ "\x27, using rule candidate")⟩⟩)
    ∧ (∀ (s : GenericSupervisor) (pb : PromptBuilder) (state : State)
        (internal response : VDict),
      state.getD "_internal" (.vdict .nil) = .vdict internal →
      state.getD "response" (.vdict .nil) = .vdict response →
      ∃ d, s.decideWithTrace pb state = .ok d) := by
  refine ⟨?_, ?_, ?_⟩
  · intro s pb state internal response arb hi hr hsl harb hterm hexp
    have hllm : llmPhase s pb state (s.registry.evaluateTriggers s.name state)
        (selectTopMatches (s.registry.evaluateTriggers s.name state))
        (childDecisionOf internal) = none := by
      simp only [llmPhase, hsl]
      exact decideWithLLM_raises s arb pb state _ _ _ harb
    refine ⟨decideCore s pb state internal response,
      decideWithTrace_ok s pb state internal response hi hr, ?_, ?_⟩
    · intro p n rest hm
      rw [decideCore_phase3 s pb state internal response hterm hexp hllm]
      constructor <;> simp [hm]
    · intro hm
      rw [decideCore_phase3 s pb state internal response hterm hexp hllm]
      cases hcd : childDecisionOf internal <;> simp [hm, hcd]
  · intro s f state internal response arb bad r c rest hi hr hsl harb hcont hterm hexp hrc
    have hdl : decideWithLLM s arb (fun a b cc => .ok (f a b cc)) state
        (s.registry.evaluateTriggers s.name state)
        (selectTopMatches (s.registry.evaluateTriggers s.name state))
        (childDecisionOf internal) =
        some ⟨c, "LLM returned invalid \x27" ++ bad
          ++ "\x27, using rule candidate"⟩ := by
      simp only [decideWithLLM, harb]
      rw [hcont]
      simp [hrc]
    have hphase : llmPhase s (fun a b cc => .ok (f a b cc)) state
        (s.registry.evaluateTriggers s.name state)
        (selectTopMatches (s.registry.evaluateTriggers s.name state))
        (childDecisionOf internal) =
        some ⟨c, "LLM returned invalid \x27" ++ bad
          ++ "\x27, using rule candidate"⟩ := by
      simp only [llmPhase, hsl]
      exact hdl
    rw [decideWithTrace_ok s _ state internal response hi hr]
    rw [decideCore_llm s _ state internal response _ hterm hexp hphase]
  · intro s pb state internal response hi hr
    exact ⟨decideCore s pb state internal response,
      decideWithTrace_ok s pb state internal response hi hr⟩

theorem c2_decision_failures_absorbed_witness :
    (∃ d, supLLMRaise.decideWithTrace pbSupport stateNet = .ok d ∧
      (∀ (p : Int) (n : String) (rest : List (Int × String)),
        supLLMRaise.registry.evaluateTriggers "support" stateNet = (p, n) :: rest →
        d.reason.decision_type = "rule_match" ∧ d.selected_node = .vstr n) ∧
      (supLLMRaise.registry.evaluateTriggers "support" stateNet = [] →
        d.reason.decision_type = "fallback"))
    ∧ supLLMBogus.decideWithTrace (fun _ _ _ => .ok "PROMPT") stateNet = .ok
      ⟨.vstr "network_node", ⟨"llm_decision",
        buildMatchedRules regSupport [(90, "network_node")], true,
        some ("LLM returned invalid \x27bogus\x27, using rule candidate")⟩⟩
    ∧ (∃ d, supOrphan.decideWithTrace pbSupport stateGhost = .ok d) := by
  refine ⟨?_, ?_, ?_⟩
  · exact c2_decision_failures_absorbed.1 supLLMRaise pbSupport stateNet
      VDict.nil VDict.nil arbRaises rfl rfl rfl (fun _ => rfl)
      (by decide) (by decide)
  · have h := c2_decision_failures_absorbed.2.1 supLLMBogus
      (fun _ _ _ => "PROMPT") stateNet VDict.nil VDict.nil arbBogus
      "bogus" "because" "network_node" [] rfl rfl rfl (fun _ => rfl)
      (by decide) (by decide) (by decide) (by decide)
    simpa using h
  · exact c2_decision_failures_absorbed.2.2 supOrphan pbSupport stateGhost
      (.cons "decision" (.vstr "ghost") .nil) VDict.nil rfl rfl

/-- **C3.** With the concrete `NodeRegistry` as the prompt builder for the
arbitration call, `decide_with_trace` never returns `decision_type =
llm_decision`, for every supervisor, Arbitrator and (well-formed) state:
the arbitration phase calls `build_llm_prompt` with a `context` keyword
argument the method does not declare, so every arbitration attempt raises
`TypeError` inside `_decide_with_llm`, is absorbed by its `except`, and the
pipeline resolves through the other phases. -/
theorem c3_llm_decision_unreachable :
    ∀ (s : GenericSupervisor) (state : State) (internal response : VDict)
      (d : RoutingDecision),
      state.getD "_internal" (.vdict .nil) = .vdict internal →
      state.getD "response" (.vdict .nil) = .vdict response →
      s.decideWithTrace (nodeRegistryPromptBuilder s.registry) state = .ok d →
      d.reason.decision_type ≠ "llm_decision" ∧
        d.reason.decision_type ∈
          (["terminal_state", "explicit_routing", "rule_match", "fallback"] :
            List String) := by
  intro s state internal response d hi hr hdec
  rw [decideWithTrace_ok s _ state internal response hi hr] at hdec
  injection hdec with hd
  subst hd
  cases h1 : checkImmediateRules s response with
  | some node =>
    rw [decideCore_terminal s _ state internal response node h1]
    exact ⟨by simp, by simp⟩
  | none =>
    cases h2 : explicitRouteOf state with
    | some nid =>
      rw [decideCore_explicit s _ state internal response nid h1 h2]
      exact ⟨by simp, by simp⟩
    | none =>
      rw [decideCore_phase3 s _ state internal response h1 h2
        (llmPhase_realRegistry s s.registry state _ _ _)]
      cases hm : s.registry.evaluateTriggers s.name state with
      | nil =>
        cases hcd : childDecisionOf internal <;>
          exact ⟨by simp, by simp⟩
      | cons hd tl =>
        obtain ⟨p, n⟩ := hd
        exact ⟨by simp, by simp⟩

theorem c3_llm_decision_unreachable_witness :
    ∃ d, supLLMRaise.decideWithTrace (nodeRegistryPromptBuilder regSupport)
        stateNet = .ok d
      ∧ d.reason.decision_type ≠ "llm_decision"
      ∧ d.reason.decision_type ∈
          (["terminal_state", "explicit_routing", "rule_match", "fallback"] :
            List String) := by
  refine ⟨⟨.vstr "network_node",
    ⟨"rule_match", buildMatchedRules regSupport [(90, "network_node")],
      false, none⟩⟩, rfl, ?_⟩
  exact c3_llm_decision_unreachable supLLMRaise stateNet VDict.nil VDict.nil
    _ rfl rfl rfl

/-- **C9.** The pure decision operations are embedded as functions of the
state that return only a decision, so they cannot mutate the caller's state
and repeated calls agree by construction; the provable content is the frame
of `run()`: every successful `run()` returns a partial update holding
exactly the `_internal` key, merging that update leaves every other slice of
the caller's state untouched, and (in the non-guard case) the updated
internal slice carries the recorded decision, the counter incremented by
one, and every other internal entry unchanged. -/
theorem c9_run_update_restricted :
    (∀ (s : GenericSupervisor) (pb : PromptBuilder) (state : State) (u : State),
      s.run pb state = .ok u →
      ∃ ud, u = .cons "_internal" (.vdict ud) .nil)
    ∧ (∀ (st : State) (v : Value) (k : String), k ≠ "_internal" →
      (applyUpdate st (.cons "_internal" v .nil)).get? k = st.get? k)
    ∧ (∀ (s : GenericSupervisor) (pb : PromptBuilder) (state : State)
        (internal : VDict) (n : Int) (d : SupervisorDecision),
      state.getD "_internal" (.vdict .nil) = .vdict internal →
      internal.getD (s.name ++ "_iteration") (.vint 0) = .vint n →
      n < s.max_iterations →
      s.decide pb state = .ok d →
      ∃ ud, s.run pb state = .ok (.cons "_internal" (.vdict ud) .nil)
        ∧ ud.get? "decision" = some (.vstr d.next_node)
        ∧ ud.get? (s.name ++ "_iteration") = some (.vint (n + 1))
        ∧ ∀ k, k ≠ "decision" → k ≠ s.name ++ "_iteration" →
            ud.get? k = internal.get? k) := by
  refine ⟨?_, ?_, ?_⟩
  · intro s pb state u h
    cases hasd : asDict (state.getD "_internal" (.vdict .nil)) with
    | error e => simp [GenericSupervisor.run, hasd] at h
    | ok internal =>
      cases hint : asPyInt (internal.getD (s.name ++ "_iteration") (.vint 0)) with
      | error e => simp [GenericSupervisor.run, hasd, hint] at h
      | ok current =>
        by_cases hge : current ≥ s.max_iterations
        · simp [GenericSupervisor.run, hasd, hint, hge] at h
          exact ⟨_, h.symm⟩
        · cases hdec : s.decide pb state with
          | error e => simp [GenericSupervisor.run, hasd, hint, hge, hdec] at h
          | ok d =>
            simp [GenericSupervisor.run, hasd, hint, hge, hdec] at h
            exact ⟨_, h.symm⟩
  · intro st v k hk
    exact applyUpdate_single_get?_ne st "_internal" k v hk
  · intro s pb state internal n d hi hcnt hlt hd
    refine ⟨_, run_step_eq s pb state internal n d hi hcnt hlt hd, ?_, ?_, ?_⟩
    · rw [VDict.get?_set_ne _ _ _ _ (Ne.symm (iterKey_ne_decision s.name))]
      exact VDict.get?_set_self internal "decision" (.vstr d.next_node)
    · exact VDict.get?_set_self _ _ _
    · intro k hk1 hk2
      rw [VDict.get?_set_ne _ _ _ _ hk2, VDict.get?_set_ne _ _ _ _ hk1]

theorem c9_run_update_restricted_witness :
    (∃ ud, supSupport.run pbSupport stateOver =
      .ok (.cons "_internal" (.vdict ud) .nil))
    ∧ (applyUpdate stateNet
        (.cons "_internal" (.vdict (.cons "decision" (.vstr "x") .nil)) .nil)).get?
        "request" = stateNet.get? "request"
    ∧ (∃ ud, supSupport.run pbSupport stateNet =
        .ok (.cons "_internal" (.vdict ud) .nil)
      ∧ ud.get? "decision" = some (.vstr "network_node")
      ∧ ud.get? ("support" ++ "_iteration") = some (.vint 1)
      ∧ ∀ k, k ≠ "decision" → k ≠ "support" ++ "_iteration" →
          ud.get? k = VDict.nil.get? k) := by
  refine ⟨?_, ?_, ?_⟩
  · obtain ⟨ud, hu⟩ := c9_run_update_restricted.1 supSupport pbSupport stateOver
      _ rfl
    exact ⟨ud, by rw [← hu]; rfl⟩
  · exact c9_run_update_restricted.2.1 stateNet
      (.vdict (.cons "decision" (.vstr "x") .nil)) "request" (by decide)
  · exact c9_run_update_restricted.2.2 supSupport pbSupport stateNet
      VDict.nil 0 { next_node := "network_node", reasoning := "" }
      rfl (by decide) (by decide) rfl

/-- **C10.** The iteration guard is enforced only by `run()`: for every
(well-formed) state whose internal iteration counter is at or beyond
`max_iterations`, `decide_with_trace` and `decide` still run the full
decision pipeline (`decideCore`: terminal-state check, explicit routing,
rule evaluation, arbitration, fallback) rather than short-circuiting to the
sentinel; concretely, with the counter at 9 and the limit at 5, the same
state makes `decide_with_trace` return the matched handler `network_node`
while `run` returns the guard-tripped sentinel update. -/
theorem c10_guard_only_in_run :
    (∀ (s : GenericSupervisor) (pb : PromptBuilder) (state : State)
        (internal response : VDict) (n : Int),
      state.getD "_internal" (.vdict .nil) = .vdict internal →
      state.getD "response" (.vdict .nil) = .vdict response →
      internal.getD (s.name ++ "_iteration") (.vint 0) = .vint n →
      n ≥ s.max_iterations →
      s.decideWithTrace pb state = .ok (decideCore s pb state internal response)
      ∧ s.decide pb state =
        .ok (decideCore s pb state internal response).toSupervisorDecision)
    ∧ (supSupport.decideWithTrace pbSupport stateNetOver =
        .ok ⟨.vstr "network_node",
          ⟨"rule_match", buildMatchedRules regSupport [(90, "network_node")],
            false, none⟩⟩
      ∧ supSupport.run pbSupport stateNetOver =
        .ok (.cons "_internal" (.vdict (.cons "support_iteration" (.vint 9)
          (.cons "decision" (.vstr "done") .nil))) .nil)
      ∧ supSupport.max_iterations = 5) := by
  constructor
  · intro s pb state internal response n hi hr hcnt hge
    have h := decideWithTrace_ok s pb state internal response hi hr
    refine ⟨h, ?_⟩
    unfold GenericSupervisor.decide
    rw [h]
    rfl
  · exact ⟨rfl, rfl, rfl⟩

theorem c10_guard_only_in_run_witness :
    supSupport.decideWithTrace pbSupport stateNetOver =
      .ok (decideCore supSupport pbSupport stateNetOver
        (.cons "support_iteration" (.vint 9) .nil) VDict.nil)
    ∧ supSupport.decide pbSupport stateNetOver =
      .ok (decideCore supSupport pbSupport stateNetOver
        (.cons "support_iteration" (.vint 9) .nil) VDict.nil).toSupervisorDecision := by
  exact c10_guard_only_in_run.1 supSupport pbSupport stateNetOver
    (.cons "support_iteration" (.vint 9) .nil) VDict.nil 9
    rfl rfl (by decide) (by decide)

end AgentContracts
